import Mathlib

/-!
A shallow embedding of the two core subsystems of the pubmed-analysis-system
repository:

* the TF-IDF keyword-extraction engine (`api/services/tfidf.ts`,
  class `TFIDFService`), and
* the multi-provider AI orchestration layer (`AIServiceManager` and
  `BaseAdapter`, `api/services/ai/`).

Modelling conventions:

* JavaScript numbers are modelled as exact rationals (`ℚ`) or naturals; we do
  not model IEEE-754 rounding.
* `Math.log` values never need to be computed by the source beyond comparison
  and sign, and every logarithm taken by the engine has a rational argument.
  We therefore represent a value `c * ln a` by the pair `⟨c, a⟩ : LogQ` of
  exact rationals and interpret it in theorem statements via `Real.log`.
* JavaScript `Map`/`Set` are modelled as insertion-ordered association lists
  with the same update semantics (`set` on an existing key keeps its position,
  otherwise appends; `Set.add` appends only new elements).
* `undefined` optional fields are `Option.none`; the JS `x || d` default
  idiom (which also replaces `0` by the default) is `jsOrNat` / `jsOrQ`.
-/

set_option maxRecDepth 20000

unseal Rat.mul Rat.add Rat.sub Rat.inv

namespace PubmedAnalysis

/-- JS `opt || d` for an optional number: `undefined` and `0` both give `d`. -/
def jsOrNat (o : Option Nat) (d : Nat) : Nat :=
  match o with
  | none => d
  | some 0 => d
  | some n => n

/-- JS `opt || d` for an optional rational number: `undefined` and `0` give `d`. -/
def jsOrQ (o : Option ℚ) (d : ℚ) : ℚ :=
  match o with
  | none => d
  | some q => if q = 0 then d else q

/-- Lookup in an insertion-ordered association list (JS `Map.get`). -/
def alGet {β : Type} (m : List (String × β)) (k : String) : Option β :=
  match m with
  | [] => none
  | (k', v) :: rest => if k' = k then some v else alGet rest k

/-- JS `Map.set`: replace in place if the key exists, otherwise append. -/
def alSet {β : Type} (m : List (String × β)) (k : String) (v : β) :
    List (String × β) :=
  match m with
  | [] => [(k, v)]
  | (k', v') :: rest =>
    if k' = k then (k', v) :: rest else (k', v') :: alSet rest k v

/-- JS `Map.delete`: remove the entry for a key (no-op when absent). -/
def alDelete {β : Type} (m : List (String × β)) (k : String) :
    List (String × β) :=
  match m with
  | [] => []
  | (k', v') :: rest =>
    if k' = k then rest else (k', v') :: alDelete rest k

/-- Exact symbolic representation of the real number `coef * ln arg`.
Every logarithm the TF-IDF engine takes (`Math.log(totalDocuments/(df+1))`)
has a rational argument, and all quantities derived from it are rational
multiples of a single logarithm, so this pair represents them exactly. -/
structure LogQ where
  coef : ℚ
  arg : ℚ
deriving DecidableEq, Repr

/-- Exact comparison `x.coef * ln x.arg > y.coef * ln y.arg` for positive
arguments: multiply through by the (positive) product of the coefficient
denominators and compare the resulting integer powers of the arguments. -/
def LogQ.gtB (x y : LogQ) : Bool :=
  decide (y.arg ^ (y.coef.num * (x.coef.den : ℤ)) <
    x.arg ^ (x.coef.num * (y.coef.den : ℤ)))

/-! ## Tokenizer / filter (`TFIDFService.tokenize`, `filterWords`) -/

/-- The CJK ideograph range `一`–`鿿` used by the tokenizer's regexes. -/
def isCJK (c : Char) : Bool :=
  0x4e00 ≤ c.toNat && c.toNat ≤ 0x9fff

/-- JS regex `\w` (ASCII word character). -/
def isWordCharJs (c : Char) : Bool :=
  (c.isAlpha && c.toNat < 128) || c.isDigit || c = '_'

/-- JS regex `\s` (whitespace); the ASCII members plus the common Unicode
spaces. Only the ASCII ones occur in the corpus texts the engine handles. -/
def isJsSpace (c : Char) : Bool :=
  c = ' ' || c = '\t' || c = '\n' || c = '\r' ||
    c.toNat = 0x0b || c.toNat = 0x0c || c.toNat = 0xa0 ||
    c.toNat = 0x3000 || c.toNat = 0xfeff

/-- JS regex `[a-zA-Z0-9-]` used when decomposing a mixed CJK segment. -/
def isLatinRunChar (c : Char) : Bool :=
  (c.isAlpha && c.toNat < 128) || c.isDigit || c = '-'

/-- `text.toLowerCase()`; agrees with JS on ASCII, and CJK ideographs have no
case in either. -/
def jsToLower (s : String) : String :=
  String.mk (s.data.map Char.toLower)

/-- `text.replace(/[^\w一-鿿\s-]/g, ' ')`. -/
def stripSpecial (s : String) : String :=
  String.mk (s.data.map fun c =>
    if isWordCharJs c || isCJK c || isJsSpace c || c = '-' then c else ' ')

/-- Split a character list at every separator character, keeping empty
segments (the semantics of `String.split`). -/
def splitAuxChars (p : Char → Bool) : List Char → String → List String
  | [], cur => [cur]
  | c :: rest, cur =>
    if p c then cur :: splitAuxChars p rest ""
    else splitAuxChars p rest (cur.push c)

/-- `text.split(/\s+/).filter(s => s.length > 0)`. -/
def splitWs (s : String) : List String :=
  (splitAuxChars isJsSpace s.data "").filter (fun seg => seg ≠ "")

/-- Whether a segment contains a CJK ideograph (`/[一-鿿]/.test`). -/
def segHasCJK (seg : String) : Bool :=
  seg.data.any isCJK

/-- The character-by-character decomposition of a segment containing CJK:
each ideograph becomes its own token, contiguous `[a-zA-Z0-9-]` runs are
accumulated into `currentWord`, any other character flushes the run. -/
def splitCJKSeg (chars : List Char) (currentWord : String) : List String :=
  match chars with
  | [] => if currentWord = "" then [] else [currentWord]
  | c :: rest =>
    if isCJK c then
      (if currentWord = "" then [] else [currentWord]) ++
        String.singleton c :: splitCJKSeg rest ""
    else if isLatinRunChar c then
      splitCJKSeg rest (currentWord.push c)
    else
      (if currentWord = "" then [] else [currentWord]) ++ splitCJKSeg rest ""

/-- `TFIDFService.tokenize`: lower-case, strip special characters, split on
whitespace, and decompose segments that contain CJK ideographs. -/
def tokenize (text : String) : List String :=
  if text = "" then []
  else
    (splitWs (stripSpecial (jsToLower text))).flatMap fun seg =>
      if segHasCJK seg then splitCJKSeg seg.data "" else [seg]

/-- JS regex `/^\d+$/`. -/
def isAllDigits (w : String) : Bool :=
  w ≠ "" && w.data.all Char.isDigit

/-- The body of `TFIDFService.filterWords`, with the effective minimum length
already resolved (the source computes `options.minWordLength || 3` inline). -/
def filterWordsCore (stopWords : List String) (minLength : Nat)
    (words : List String) : List String :=
  words.filter fun word =>
    if word.length < minLength then false
    else if stopWords.contains word then false
    else if isAllDigits word then false
    else if word.length = 1 && !(word.data.any isCJK) then false
    else true

/-! ## Seeded stopword set (`TFIDFService.initializeStopWords`) -/

/-- The English stopword seed list, transcribed from the source. -/
def englishStopWords : List String :=
  ["the", "a", "an", "and", "or", "but", "in", "on", "at", "to", "for", "of",
   "with", "by", "is", "are", "was", "were", "be", "been", "being", "have",
   "has", "had", "do", "does", "did", "will", "would", "could", "should",
   "may", "might", "must", "can", "this", "that", "these", "those", "i",
   "you", "he", "she", "it", "we", "they", "me", "him", "her", "us", "them",
   "my", "your", "his", "her", "its", "our", "their", "from", "up", "about",
   "into", "through", "during", "before", "after", "above", "below",
   "between", "among", "not", "no", "nor", "so", "than", "too", "very",
   "just", "now", "study", "studies", "research", "analysis", "method",
   "methods", "result", "results", "conclusion", "conclusions", "background",
   "objective", "objectives", "purpose", "aim", "aims", "data", "patient",
   "patients", "group", "groups", "control", "treatment", "clinical",
   "trial", "trials", "effect", "effects", "significant", "significantly",
   "associated", "association", "compared", "comparison", "increase",
   "increased", "decrease", "decreased", "high", "low", "level", "levels",
   "rate", "rates"]

/-- The Chinese stopword seed list, transcribed from the source. -/
def chineseStopWords : List String :=
  ["的", "了", "在", "是", "我", "有", "和", "就", "不", "人", "都", "一",
   "一个", "上", "也", "很", "到", "说", "要", "去", "你", "会", "着",
   "没有", "看", "好", "自己", "这", "那", "里", "就是", "还", "把", "比",
   "让", "时", "过", "出", "小", "么", "起", "你们", "到了", "大", "来",
   "他", "真的", "手", "高", "等", "老", "什么", "这个", "中", "下", "为",
   "来了", "研究", "分析", "方法", "结果", "结论", "背景", "目的", "目标",
   "数据", "患者", "病人", "组", "对照", "治疗", "临床", "试验", "效果",
   "显著", "相关", "关联", "比较", "增加", "减少", "提高", "降低", "水平",
   "程度", "发现", "观察", "统计", "差异", "意义", "P值", "置信", "区间",
   "样本", "例数", "病例", "疾病", "症状", "诊断", "预后", "随访"]

/-- JS `Set.add`: append only when the element is not yet present. -/
def setAdd (s : List String) (w : String) : List String :=
  if s.contains w then s else s ++ [w]

/-- `new Set([...])`: deduplicate preserving first-occurrence order. -/
def mkStringSet (l : List String) : List String :=
  l.foldl setAdd []

/-- `TFIDFService.initializeStopWords`:
`new Set([...englishStopWords, ...chineseStopWords])`. -/
def initStopWords : List String :=
  mkStringSet (englishStopWords ++ chineseStopWords)

/-! ## TF-IDF scorer (`TFIDFService`) -/

/-- One scored term (`KeywordResult` of `tfidf.ts`).  The real-valued fields
`tf`, `idf` and `tfidf` are all rational multiples of the single logarithm
`ln (totalDocuments / (df_abs + 1))` of the term, and are stored exactly as
`LogQ` values (see `LogQ`). -/
structure KeywordResult where
  word : String
  tf : LogQ
  df : ℚ
  idf : LogQ
  tfidf : LogQ
  frequency : Nat
  documentCount : Nat
deriving DecidableEq, Repr

/-- `TFIDFOptions` of `tfidf.ts`; absent fields are `none`. -/
structure TFIDFOptions where
  minWordLength : Option Nat := none
  maxWordFrequency : Option ℚ := none
  maxDocumentFrequency : Option ℚ := none
  topPercentage : Option ℚ := none
  language : Option String := none
deriving DecidableEq, Repr

/-- The mutable state of a `TFIDFService` instance: the stopword set (a JS
`Set`, i.e. an insertion-ordered list without duplicates) and the result
cache (a JS `Map` in insertion order, FIFO-evicted at `cacheMaxSize`). -/
structure TFIDFState where
  stopWords : List String
  cache : List (String × List KeywordResult)
  cacheMaxSize : Nat := 100
deriving DecidableEq, Repr

/-- `new TFIDFService()`. -/
def TFIDFState.init : TFIDFState :=
  { stopWords := initStopWords, cache := [] }

/-- `TFIDFService.filterWords` (the `options.minWordLength || 3` default is
resolved here, as at the source's single use site). -/
def filterWords (stopWords : List String) (words : List String)
    (options : TFIDFOptions) : List String :=
  filterWordsCore stopWords (jsOrNat options.minWordLength 3) words

/-- The UTF-16 code units of a string (JS `charCodeAt` indexing). -/
def utf16Units (s : String) : List Nat :=
  s.data.flatMap fun c =>
    let n := c.toNat
    if n < 0x10000 then [n]
    else [0xd800 + (n - 0x10000) / 0x400, 0xdc00 + (n - 0x10000) % 0x400]

/-- JS `ToInt32`: wrap an integer into `[-2^31, 2^31)`. -/
def toInt32 (n : ℤ) : ℤ :=
  ((n + 2 ^ 31) % 2 ^ 32) - 2 ^ 31

/-- One step of `hashDocuments`'s loop:
`hash = ((hash << 5) - hash) + char; hash = hash & hash`. -/
def hashStep (h : ℤ) (c : Nat) : ℤ :=
  toInt32 (toInt32 (h * 32) - h + c)

/-- `TFIDFService.hashDocuments`: hash of the documents joined with `"|"`. -/
def hashDocuments (documents : List String) : ℤ :=
  (utf16Units (String.intercalate "|" documents)).foldl hashStep 0

/-- The JSON escape of one character (only the quote and backslash need
escaping in the strings the system handles). -/
def escapeJsonChar (c : Char) : List Char :=
  if c = '"' ∨ c = '\\' then ['\\', c] else [c]

/-- A JSON string literal (`JSON.stringify` of a string). -/
def jsonString (s : String) : String :=
  String.mk ('"' :: (s.data.flatMap escapeJsonChar ++ ['"']))

/-- A JSON object member `"name":value` for a present optional field. -/
def jsonField {α : Type} (printed : α → String) (name : String)
    (o : Option α) : List String :=
  match o with
  | none => []
  | some v => ["\"" ++ name ++ "\":" ++ printed v]

/-- `JSON.stringify(options)`: absent (`undefined`) fields are omitted; we
serialize present fields in declaration order (the order in which the
surrounding application builds the object).  Only injectivity on distinct
option values and determinism matter to the engine, which uses this string
purely as a cache-key component. -/
def optionsJson (o : TFIDFOptions) : String :=
  "\x7b" ++
    String.intercalate ","
      (jsonField toString "minWordLength" o.minWordLength ++
        jsonField toString "maxWordFrequency" o.maxWordFrequency ++
        jsonField toString "maxDocumentFrequency" o.maxDocumentFrequency ++
        jsonField toString "topPercentage" o.topPercentage ++
        jsonField jsonString "language" o.language) ++
    "\x7d"

/-- `TFIDFService.generateCacheKey`. -/
def generateCacheKey (documents : List String) (options : TFIDFOptions) :
    String :=
  toString (hashDocuments documents) ++ "_" ++ optionsJson options

/-- Increment a counter in an insertion-ordered counting map. -/
def bumpCount (m : List (String × Nat)) (w : String) : List (String × Nat) :=
  match alGet m w with
  | some k => alSet m w (k + 1)
  | none => m ++ [(w, 1)]

/-- `TFIDFService.calculateTF`: per-document term frequency, normalized by
the document's token count.  Entry order is first-occurrence order, as for
the JS `Map`. -/
def calculateTF (words : List String) : List (String × ℚ) :=
  (words.foldl bumpCount []).map fun p => (p.1, (p.2 : ℚ) / (words.length : ℚ))

/-- The tokenized-and-filtered documents (`processedDocs` in
`extractKeywords`), with the effective minimum word length resolved. -/
def processDocs (stopWords : List String) (documents : List String)
    (minLength : Nat) : List (List String) :=
  documents.map fun doc => filterWordsCore stopWords minLength (tokenize doc)

/-- The `wordFrequency` map of `extractKeywords`: raw occurrence counts over
all processed documents, keys in first-occurrence order. -/
def buildWordFrequency (pdocs : List (List String)) : List (String × Nat) :=
  pdocs.foldl (fun m doc => doc.foldl bumpCount m) []

/-- `df` as computed in `calculateIDF`: the number of processed documents
containing the word. -/
def dfAbs (pdocs : List (List String)) (w : String) : Nat :=
  (pdocs.filter fun doc => doc.contains w).length

/-- The rational argument of the term's IDF logarithm:
`idf = Math.log(totalDocuments / (df + 1))`. -/
def idfArg (totalDocuments : Nat) (pdocs : List (List String)) (w : String) :
    ℚ :=
  (totalDocuments : ℚ) / ((dfAbs pdocs w : ℚ) + 1)

/-- Append one per-document score to a word's score list (`allTFIDF`):
`if (!allTFIDF.has(word)) allTFIDF.set(word, []); allTFIDF.get(word).push(x)`. -/
def alPush (m : List (String × List ℚ)) (w : String) (x : ℚ) :
    List (String × List ℚ) :=
  match alGet m w with
  | some l => alSet m w (l ++ [x])
  | none => m ++ [(w, [x])]

/-- The `allTFIDF` map of `extractKeywords`.  The source pushes the real
number `tfValue * idf(word)`; since `idf(word)` is the same logarithm for
every occurrence of a word, we store only the rational coefficient
`tfValue`, the score being `tfValue * ln (idfArg word)`. -/
def buildAllTFIDF (pdocs : List (List String)) : List (String × List ℚ) :=
  pdocs.foldl
    (fun acc doc => (calculateTF doc).foldl (fun a p => alPush a p.1 p.2) acc)
    []

/-- One aggregated `KeywordResult`, built from a word's `allTFIDF` entry
exactly as in the `results` loop of `extractKeywords`. -/
def mkResult (totalDocuments : Nat) (pdocs : List (List String))
    (wordFrequency : List (String × Nat)) (p : String × List ℚ) :
    KeywordResult :=
  let w := p.1
  let scores := p.2
  let q := idfArg totalDocuments pdocs w
  let s := scores.sum
  { word := w
    tf := ⟨s / (totalDocuments : ℚ), q⟩
    df := (dfAbs pdocs w : ℚ) / (totalDocuments : ℚ)
    idf := ⟨1, q⟩
    tfidf := ⟨s / (scores.length : ℚ), q⟩
    frequency := (alGet wordFrequency w).getD 0
    documentCount := dfAbs pdocs w }

/-- The unfiltered `results` list of `extractKeywords`. -/
def rawResults (totalDocuments : Nat) (pdocs : List (List String)) :
    List KeywordResult :=
  (buildAllTFIDF pdocs).map
    (mkResult totalDocuments pdocs (buildWordFrequency pdocs))

/-- The post-scoring filter of `extractKeywords`: the `maxWordFrequency`
threshold applies only when truthy and `>= 1`; the
`maxDocumentFrequency` bound is already resolved by the caller's
`options.maxDocumentFrequency || 0.8`. -/
def keepResult (mwf : Option ℚ) (mdf : ℚ) (r : KeywordResult) : Bool :=
  (match mwf with
   | none => true
   | some m => if m ≠ 0 ∧ 1 ≤ m ∧ m < (r.frequency : ℚ) then false else true)
  && !(mdf < r.df)

/-- Stable insertion into a sorted prefix: the element goes before the first
entry it compares strictly greater than. -/
def insertByGt {α : Type} (gt : α → α → Bool) (x : α) :
    List α → List α
  | [] => [x]
  | y :: ys => if gt x y then x :: y :: ys else y :: insertByGt gt x ys

/-- The unique stable sort with respect to the strict comparison `gt`
(greatest first).  JS `Array.prototype.sort` is stable, so its output with
comparator `(a, b) => b.tfidf - a.tfidf` is exactly this list. -/
def sortByGt {α : Type} (gt : α → α → Bool) (l : List α) : List α :=
  l.foldl (fun acc x => insertByGt gt x acc) []

/-- `Math.max(1, Math.floor(filteredResults.length * topPercentage))`. -/
def keepCountOf (filteredCount : Nat) (topPercentage : ℚ) : Nat :=
  (max 1 (Rat.floor ((filteredCount : ℚ) * topPercentage))).toNat

/-- The `filteredResults` list of `extractKeywords`, with the effective
option values already resolved. -/
def filteredResultsOf (stopWords : List String) (documents : List String)
    (minLength : Nat) (mwf : Option ℚ) (mdf : ℚ) : List KeywordResult :=
  (rawResults documents.length (processDocs stopWords documents minLength)).filter
    (keepResult mwf mdf)

/-- The scoring pipeline of `extractKeywords` after the cache check, from the
effective option values to the final truncated list. -/
def computeCore (stopWords : List String) (documents : List String)
    (minLength : Nat) (mwf : Option ℚ) (mdf : ℚ) (tp : ℚ) :
    List KeywordResult :=
  let filtered := filteredResultsOf stopWords documents minLength mwf mdf
  (sortByGt (fun a b => LogQ.gtB a.tfidf b.tfidf) filtered).take
    (keepCountOf filtered.length tp)

/-- The scoring pipeline with the source's option defaults
(`minWordLength || 3`, `maxDocumentFrequency || 0.8`,
`topPercentage || 0.35`) resolved at their use sites. -/
def computeKeywords (stopWords : List String) (documents : List String)
    (options : TFIDFOptions) : List KeywordResult :=
  computeCore stopWords documents (jsOrNat options.minWordLength 3)
    options.maxWordFrequency (jsOrQ options.maxDocumentFrequency (4 / 5))
    (jsOrQ options.topPercentage (7 / 20))

/-- `TFIDFService.setCacheResult`: FIFO-evict the oldest entry when full,
then insert. -/
def setCacheResult (cache : List (String × List KeywordResult))
    (maxSize : Nat) (key : String) (result : List KeywordResult) :
    List (String × List KeywordResult) :=
  let c := if maxSize ≤ cache.length then cache.drop 1 else cache
  alSet c key result

/-- `TFIDFService.extractKeywords`: empty input short-circuits to `[]`; a
cache hit returns the stored list unchanged; otherwise the pipeline runs and
its result is cached. -/
def extractKeywords (s : TFIDFState) (documents : List String)
    (options : TFIDFOptions) : List KeywordResult × TFIDFState :=
  if documents.isEmpty then ([], s)
  else
    let cacheKey := generateCacheKey documents options
    match alGet s.cache cacheKey with
    | some cached => (cached, s)
    | none =>
      let finalResults := computeKeywords s.stopWords documents options
      (finalResults,
        { s with
          cache := setCacheResult s.cache s.cacheMaxSize cacheKey finalResults })

/-- `TFIDFService.addStopWords`: case-fold and add each word. -/
def addStopWords (s : TFIDFState) (words : List String) : TFIDFState :=
  { s with stopWords := words.foldl (fun set w => setAdd set (jsToLower w)) s.stopWords }

/-- `TFIDFService.removeStopWords`: case-fold and delete each word. -/
def removeStopWords (s : TFIDFState) (words : List String) : TFIDFState :=
  { s with
    stopWords :=
      words.foldl (fun set w => set.filter (fun v => v ≠ jsToLower w))
        s.stopWords }

/-- `TFIDFService.getStopWords`. -/
def getStopWords (s : TFIDFState) : List String :=
  s.stopWords

/-! ## AI service layer types (`api/services/ai/types.ts`) -/

/-- The `usage` record of a `GenerationResult`. -/
structure TokenUsage where
  promptTokens : Nat
  completionTokens : Nat
  totalTokens : Nat
deriving DecidableEq, Repr

/-- `GenerationResult` of `types.ts` (the open `metadata: any` escape hatch
is not modelled; the manager never inspects it). -/
structure GenerationResult where
  text : String
  tokensUsed : Option Nat := none
  cost : Option ℚ := none
  model : Option String := none
  finishReason : Option String := none
  usage : Option TokenUsage := none
deriving DecidableEq, Repr

/-- `GenerationOptions` of `types.ts` (without the `[key: string]: any`
escape hatch, which the manager only passes through). -/
structure GenerationOptions where
  temperature : Option ℚ := none
  maxTokens : Option Nat := none
  topP : Option ℚ := none
  frequencyPenalty : Option ℚ := none
  presencePenalty : Option ℚ := none
  systemPrompt : Option String := none
deriving DecidableEq, Repr

/-- The parameter type `GenerationOptions & \x7b preferredModel?: string \x7d`
of `AIServiceManager.generateText`; the method destructures it as
`const \x7b preferredModel, ...generationOptions \x7d = options`. -/
structure GenTextOptions where
  preferredModel : Option String := none
  gen : GenerationOptions := {}
deriving DecidableEq, Repr

/-- `ModelConfig` of `types.ts`.  `apiKey` is required by the TypeScript
type, but `updateConfig` is routinely called with partial objects, so every
field is optional here; the `[key: string]: any` extras are not modelled. -/
structure ModelConfig where
  apiKey : Option String := none
  baseUrl : Option String := none
  model : Option String := none
  temperature : Option ℚ := none
  maxTokens : Option Nat := none
  topP : Option ℚ := none
  frequencyPenalty : Option ℚ := none
  presencePenalty : Option ℚ := none
deriving DecidableEq, Repr

/-- `ModelStatus` of `types.ts`; `lastChecked` is a millisecond timestamp. -/
structure ModelStatus where
  name : String
  isAvailable : Bool
  lastChecked : Nat
  latency : Option Nat := none
  error : Option String := none
deriving DecidableEq, Repr

/-- `AIServiceManagerConfig` of `types.ts`. -/
structure AIServiceManagerConfig where
  defaultModel : Option String := none
  fallbackModels : Option (List String) := none
  enableCaching : Option Bool := none
  cacheTimeout : Option Nat := none
  maxRetries : Option Nat := none
  retryDelay : Option Nat := none
deriving DecidableEq, Repr

/-! ## `BaseAdapter` (`api/services/ai/adapters/BaseAdapter.ts`) -/

/-- The state of a `BaseAdapter`: its name and its live configuration. -/
structure BaseAdapterState where
  modelName : String
  config : ModelConfig
deriving DecidableEq, Repr

/-- The JS object spread `\x7b ...oldConfig, ...newConfig \x7d`: a field
present in the update wins, an absent field keeps its previous value. -/
def mergeModelConfig (old new : ModelConfig) : ModelConfig :=
  { apiKey := new.apiKey <|> old.apiKey
    baseUrl := new.baseUrl <|> old.baseUrl
    model := new.model <|> old.model
    temperature := new.temperature <|> old.temperature
    maxTokens := new.maxTokens <|> old.maxTokens
    topP := new.topP <|> old.topP
    frequencyPenalty := new.frequencyPenalty <|> old.frequencyPenalty
    presencePenalty := new.presencePenalty <|> old.presencePenalty }

/-- `BaseAdapter.updateConfig`: `this.config = { ...this.config, ...config }`. -/
def BaseAdapterState.updateConfig (st : BaseAdapterState)
    (config : ModelConfig) : BaseAdapterState :=
  { st with config := mergeModelConfig st.config config }

/-- `BaseAdapter.getConfig`: returns a defensive copy
(`{ ...this.config }`); copying is the identity on immutable values. -/
def BaseAdapterState.getConfig (st : BaseAdapterState) : ModelConfig :=
  st.config

/-! ## `AIServiceManager` (`api/services/ai/AIServiceManager.ts`) -/

/-- One entry of the manager's result cache:
`{ data, timestamp: Date.now() }`. -/
structure ManagerCacheEntry where
  data : GenerationResult
  timestamp : Nat
deriving DecidableEq, Repr

/-- The mutable state of an `AIServiceManager`: the registered adapter names,
the per-model status map, the merged configuration, and the result cache.
Adapter behaviour (each registered adapter's `generateText`) is supplied to
`AIServiceManager.generateText` as an explicit environment argument. -/
structure AIServiceManagerState where
  adapters : List String
  modelStatuses : List (String × ModelStatus)
  config : AIServiceManagerConfig
  cache : List (String × ManagerCacheEntry)
deriving DecidableEq, Repr

/-- The constructor's config merge `{ defaults..., ...config }`. -/
def mergeManagerConfig (config : AIServiceManagerConfig) :
    AIServiceManagerConfig :=
  { defaultModel := config.defaultModel <|> some "deepseek"
    fallbackModels := config.fallbackModels <|> some ["openai", "claude", "gemini"]
    enableCaching := config.enableCaching <|> some true
    cacheTimeout := config.cacheTimeout <|> some 300000
    maxRetries := config.maxRetries <|> some 3
    retryDelay := config.retryDelay <|> some 1000 }

/-- `new AIServiceManager(config)`. -/
def AIServiceManagerState.new (config : AIServiceManagerConfig) :
    AIServiceManagerState :=
  { adapters := [], modelStatuses := [], config := mergeManagerConfig config
    cache := [] }

/-- `AIServiceManager.registerAdapter`: adds to the registry and initializes
the model's status to unavailable. -/
def registerAdapter (st : AIServiceManagerState) (name : String) (now : Nat) :
    AIServiceManagerState :=
  { st with
    adapters := setAdd st.adapters name
    modelStatuses :=
      alSet st.modelStatuses name
        { name := name, isAvailable := false, lastChecked := now } }

/-- `AIServiceManager.setModelStatus`. -/
def setModelStatus (st : AIServiceManagerState) (name : String)
    (status : ModelStatus) : AIServiceManagerState :=
  { st with modelStatuses := alSet st.modelStatuses name status }

/-- `AIServiceManager.isModelAvailable`:
`this.modelStatuses.get(name)?.isAvailable || false`. -/
def isModelAvailable (st : AIServiceManagerState) (name : String) : Bool :=
  ((alGet st.modelStatuses name).map ModelStatus.isAvailable).getD false

/-- Truthiness of `this.config.enableCaching` (`undefined` is falsy). -/
def cachingEnabled (config : AIServiceManagerConfig) : Bool :=
  config.enableCaching.getD false

/-- A canonical injective rendering of `JSON.stringify` on a
`GenerationOptions` object: present fields in declaration order. -/
def genOptionsJson (o : GenerationOptions) : String :=
  "\x7b" ++
    String.intercalate ","
      (jsonField toString "temperature" o.temperature ++
        jsonField toString "maxTokens" o.maxTokens ++
        jsonField toString "topP" o.topP ++
        jsonField toString "frequencyPenalty" o.frequencyPenalty ++
        jsonField toString "presencePenalty" o.presencePenalty ++
        jsonField jsonString "systemPrompt" o.systemPrompt) ++
    "\x7d"

/-- `AIServiceManager.generateCacheKey('generateText', { prompt, options })`.
Note that the key is built from the destructured `generationOptions`, i.e.
WITHOUT `preferredModel`. -/
def genTextCacheKey (prompt : String) (generationOptions : GenerationOptions) :
    String :=
  "generateText:\x7b\"prompt\":" ++ jsonString prompt ++ ",\"options\":" ++
    genOptionsJson generationOptions ++ "\x7d"

/-- `AIServiceManager.getFromCache`: `null` when caching is disabled; a hit
within `cacheTimeout || 300000` returns the entry; otherwise the entry (if
any) is deleted and `null` is returned.  Returns the possibly-updated cache
alongside the lookup result. -/
def getFromCache (config : AIServiceManagerConfig)
    (cache : List (String × ManagerCacheEntry)) (key : String) (now : Nat) :
    Option GenerationResult × List (String × ManagerCacheEntry) :=
  if !(cachingEnabled config) then (none, cache)
  else
    match alGet cache key with
    | some entry =>
      if now - entry.timestamp < jsOrNat config.cacheTimeout 300000 then
        (some entry.data, cache)
      else (none, alDelete cache key)
    | none => (none, alDelete cache key)

/-- `AIServiceManager.saveToCache`. -/
def saveToCache (config : AIServiceManagerConfig)
    (cache : List (String × ManagerCacheEntry)) (key : String)
    (data : GenerationResult) (now : Nat) :
    List (String × ManagerCacheEntry) :=
  if cachingEnabled config then alSet cache key ⟨data, now⟩ else cache

/-- The retry loop of `AIServiceManager.generateText`, supplied with the
outcome of each adapter attempt (attempts are numbered from 1).  Returns the
final outcome together with the number of attempts actually made; when no
attempt runs the JS code throws `lastError || new Error('文本生成失败')`. -/
def retryFrom (runAttempt : Nat → Except String GenerationResult)
    (attempt : Nat) (remaining : Nat) (lastError : Option String) :
    Except String GenerationResult × Nat :=
  match remaining with
  | 0 => (.error (lastError.getD "文本生成失败"), 0)
  | r + 1 =>
    match runAttempt attempt with
    | .ok v => (.ok v, 1)
    | .error e =>
      let p := retryFrom runAttempt (attempt + 1) r (some e)
      (p.1, p.2 + 1)

/-- `AIServiceManager.generateText`.  `adapterGen name i` is the outcome of
attempt `i` of the adapter registered under `name` (the provider call is
nondeterministic, so its per-attempt outcomes enter as an environment);
`now` is `Date.now()`.  Returns the outcome, the successor manager state,
and the number of adapter attempts made. -/
def AIServiceManagerState.generateText (st : AIServiceManagerState)
    (now : Nat) (adapterGen : String → Nat → Except String GenerationResult)
    (prompt : String) (options : GenTextOptions) :
    Except String GenerationResult × AIServiceManagerState × Nat :=
  let generationOptions := options.gen
  let cacheKey := genTextCacheKey prompt generationOptions
  let looked := getFromCache st.config st.cache cacheKey now
  match looked.1 with
  | some result => (.ok result, { st with cache := looked.2 }, 0)
  | none =>
    match options.preferredModel with
    | none => (.error "必须指定AI模型", { st with cache := looked.2 }, 0)
    | some preferredModel =>
      if !(isModelAvailable st preferredModel) then
        (.error ("指定的AI模型 " ++ preferredModel ++ " 不可用"),
          { st with cache := looked.2 }, 0)
      else
        let p :=
          retryFrom (adapterGen preferredModel) 1
            (jsOrNat st.config.maxRetries 3) none
        match p.1 with
        | .ok result =>
          (.ok result,
            { st with
              cache := saveToCache st.config looked.2 cacheKey result now },
            p.2)
        | .error e => (.error e, { st with cache := looked.2 }, p.2)

/-! ## Association-list lemmas -/

theorem alGet_alSet {β : Type} (m : List (String × β)) (k k' : String) (v : β) :
    alGet (alSet m k v) k' = if k = k' then some v else alGet m k' := by
  induction m with
  | nil =>
    by_cases h : k = k' <;> simp [alSet, alGet, h]
  | cons hd t ih =>
    obtain ⟨a, b⟩ := hd
    by_cases hak : a = k
    · subst hak
      by_cases hk' : a = k' <;> simp [alSet, alGet, hk']
    · by_cases hk' : a = k'
      · subst hk'
        have hka : ¬k = a := fun h => hak h.symm
        simp [alSet, alGet, hak, hka]
      · simp [alSet, alGet, hak, hk', ih]

theorem alGet_append_of_some {β : Type} {m₁ : List (String × β)} {w : String}
    {v : β} (m₂ : List (String × β)) (h : alGet m₁ w = some v) :
    alGet (m₁ ++ m₂) w = some v := by
  induction m₁ with
  | nil => simp [alGet] at h
  | cons hd t ih =>
    obtain ⟨a, b⟩ := hd
    by_cases haw : a = w <;> simp_all [alGet]

theorem alGet_append_of_none {β : Type} {m₁ : List (String × β)} {w : String}
    (m₂ : List (String × β)) (h : alGet m₁ w = none) :
    alGet (m₁ ++ m₂) w = alGet m₂ w := by
  induction m₁ with
  | nil => simp [alGet]
  | cons hd t ih =>
    obtain ⟨a, b⟩ := hd
    by_cases haw : a = w <;> simp_all [alGet]

theorem getD_bumpCount (m : List (String × Nat)) (u w : String) :
    (alGet (bumpCount m u) w).getD 0 =
      (alGet m w).getD 0 + (if u = w then 1 else 0) := by
  unfold bumpCount
  cases h : alGet m u with
  | some k =>
    rw [alGet_alSet]
    by_cases huw : u = w
    · subst huw; simp [h]
    · simp [huw]
  | none =>
    by_cases huw : u = w
    · subst huw
      rw [alGet_append_of_none _ h, h]
      simp [alGet]
    · cases h2 : alGet m w with
      | some v => rw [alGet_append_of_some _ h2]; simp [huw]
      | none =>
        rw [alGet_append_of_none _ h2]
        simp [alGet, huw, h2]

theorem getD_bumpFold (doc : List String) :
    ∀ (m : List (String × Nat)) (w : String),
      (alGet (doc.foldl bumpCount m) w).getD 0 =
        (alGet m w).getD 0 + doc.count w := by
  induction doc with
  | nil => intro m w; simp
  | cons u us ih =>
    intro m w
    rw [List.foldl_cons, ih, getD_bumpCount, List.count_cons]
    by_cases huw : u = w <;> simp [huw] <;> omega

/-- The `wordFrequency` map holds, for every word, its total raw occurrence
count across all processed documents (`0` meaning absent). -/
theorem getD_buildWordFrequency (pdocs : List (List String)) (w : String) :
    (alGet (buildWordFrequency pdocs) w).getD 0 =
      (pdocs.map fun d => d.count w).sum := by
  suffices h : ∀ acc, (alGet (pdocs.foldl (fun m doc => doc.foldl bumpCount m) acc) w).getD 0 =
      (alGet acc w).getD 0 + (pdocs.map fun d => d.count w).sum by
    simpa [buildWordFrequency, alGet] using h []
  induction pdocs with
  | nil => intro acc; simp
  | cons d ds ih =>
    intro acc
    rw [List.foldl_cons, ih, getD_bumpFold]
    simp [Nat.add_assoc]

/-- Each containing document contributes at least one raw occurrence, so the
document count never exceeds the total occurrence count. -/
theorem dfAbs_le_count_sum (pdocs : List (List String)) (w : String) :
    dfAbs pdocs w ≤ (pdocs.map fun d => d.count w).sum := by
  induction pdocs with
  | nil => simp [dfAbs]
  | cons d ds ih =>
    unfold dfAbs at ih ⊢
    rw [List.filter_cons, List.map_cons, List.sum_cons]
    by_cases hc : w ∈ d
    · have h1 : 1 ≤ d.count w := List.count_pos_iff.mpr hc
      have h2 : (d.contains w) = true := List.elem_iff.mpr hc
      simp only [h2, if_true, List.length_cons]
      omega
    · have h2 : (d.contains w) = false :=
        Bool.eq_false_iff.mpr fun hcon => hc (List.elem_iff.mp hcon)
      simp only [h2, Bool.false_eq_true, if_false]
      omega

theorem dfAbs_le_length (pdocs : List (List String)) (w : String) :
    dfAbs pdocs w ≤ pdocs.length :=
  List.length_filter_le _ _

theorem dfAbs_pos_of_mem {pdocs : List (List String)} {w : String}
    {d : List String} (hd : d ∈ pdocs) (hw : w ∈ d) : 0 < dfAbs pdocs w := by
  have : d ∈ pdocs.filter fun doc => doc.contains w :=
    List.mem_filter.mpr ⟨hd, List.elem_iff.mpr hw⟩
  have := List.length_pos.mpr (List.ne_nil_of_mem this)
  exact this

theorem dfAbs_of_all {pdocs : List (List String)} {w : String}
    (h : ∀ d ∈ pdocs, w ∈ d) : dfAbs pdocs w = pdocs.length := by
  unfold dfAbs
  rw [List.filter_eq_self.mpr fun d hd => List.elem_iff.mpr (h d hd)]

/-! ## Key-origin lemmas: every scored word occurs in some document -/

theorem keys_alSet_subset {β : Type} (m : List (String × β)) (k : String)
    (v : β) : (alSet m k v).map Prod.fst ⊆ m.map Prod.fst ++ [k] := by
  induction m with
  | nil => simp [alSet]
  | cons hd t ih =>
    obtain ⟨a, b⟩ := hd
    by_cases hak : a = k
    · subst hak
      simp only [alSet, if_pos rfl, List.map_cons]
      exact fun x hx => List.mem_append.mpr (Or.inl hx)
    · simp only [alSet, hak, if_false, List.map_cons]
      intro x hx
      rcases List.mem_cons.mp hx with h | h
      · simp [h]
      · have := ih h
        simp only [List.mem_append] at this ⊢
        rcases this with h2 | h2
        · exact Or.inl (List.mem_cons_of_mem _ h2)
        · exact Or.inr h2

theorem keys_alPush_subset (m : List (String × List ℚ)) (w : String) (x : ℚ) :
    (alPush m w x).map Prod.fst ⊆ m.map Prod.fst ++ [w] := by
  unfold alPush
  cases alGet m w with
  | some l => exact keys_alSet_subset m w (l ++ [x])
  | none => simp

theorem keys_bumpCount_subset (m : List (String × Nat)) (u : String) :
    (bumpCount m u).map Prod.fst ⊆ m.map Prod.fst ++ [u] := by
  unfold bumpCount
  cases alGet m u with
  | some k => exact keys_alSet_subset m u (k + 1)
  | none => simp

theorem keys_bumpFold (doc : List String) :
    ∀ acc : List (String × Nat),
      ((doc.foldl bumpCount acc).map Prod.fst) ⊆ acc.map Prod.fst ++ doc := by
  induction doc with
  | nil => intro acc; simp
  | cons u us ih =>
    intro acc
    rw [List.foldl_cons]
    intro x hx
    have h1 := ih (bumpCount acc u) hx
    rcases List.mem_append.mp h1 with h2 | h2
    · have h3 := keys_bumpCount_subset acc u h2
      rcases List.mem_append.mp h3 with h4 | h4
      · exact List.mem_append.mpr (Or.inl h4)
      · simp at h4
        exact List.mem_append.mpr (Or.inr (by simp [h4]))
    · exact List.mem_append.mpr (Or.inr (List.mem_cons_of_mem _ h2))

theorem keys_calculateTF (doc : List String) :
    (calculateTF doc).map Prod.fst ⊆ doc := by
  unfold calculateTF
  rw [List.map_map]
  have : (Prod.fst ∘ fun p : String × Nat =>
      (p.1, (p.2 : ℚ) / (doc.length : ℚ))) = Prod.fst := rfl
  rw [this]
  have := keys_bumpFold doc []
  simpa using this

theorem keys_tfFold (entries : List (String × ℚ)) :
    ∀ acc : List (String × List ℚ),
      ((entries.foldl (fun a p => alPush a p.1 p.2) acc).map Prod.fst) ⊆
        acc.map Prod.fst ++ entries.map Prod.fst := by
  induction entries with
  | nil => intro acc; simp
  | cons q qs ih =>
    intro acc
    rw [List.foldl_cons]
    intro x hx
    have h1 := ih (alPush acc q.1 q.2) hx
    rcases List.mem_append.mp h1 with h2 | h2
    · have h3 := keys_alPush_subset acc q.1 q.2 h2
      rcases List.mem_append.mp h3 with h4 | h4
      · exact List.mem_append.mpr (Or.inl h4)
      · simp at h4
        exact List.mem_append.mpr (Or.inr (by simp [h4]))
    · exact List.mem_append.mpr (Or.inr (List.mem_cons_of_mem _ h2))

/-- Every key of the `allTFIDF` map occurs in one of the processed
documents. -/
theorem keys_buildAllTFIDF {pdocs : List (List String)} {w : String}
    (h : w ∈ (buildAllTFIDF pdocs).map Prod.fst) : ∃ d ∈ pdocs, w ∈ d := by
  suffices haux : ∀ acc : List (String × List ℚ),
      ((pdocs.foldl
          (fun acc doc =>
            (calculateTF doc).foldl (fun a p => alPush a p.1 p.2) acc)
          acc).map Prod.fst) ⊆ acc.map Prod.fst ++ pdocs.flatten by
    have := haux [] (by simpa [buildAllTFIDF] using h)
    simp only [List.map_nil, List.nil_append] at this
    exact List.mem_flatten.mp this
  clear h
  induction pdocs with
  | nil => intro acc; simp
  | cons d ds ih =>
    intro acc
    rw [List.foldl_cons]
    intro x hx
    have h1 := ih ((calculateTF d).foldl (fun a p => alPush a p.1 p.2) acc) hx
    rcases List.mem_append.mp h1 with h2 | h2
    · have h3 := keys_tfFold (calculateTF d) acc h2
      rcases List.mem_append.mp h3 with h4 | h4
      · exact List.mem_append.mpr (Or.inl h4)
      · have h5 := keys_calculateTF d h4
        exact List.mem_append.mpr
          (Or.inr (List.mem_flatten.mpr ⟨d, List.mem_cons_self d ds, h5⟩))
    · obtain ⟨l, hl, hx2⟩ := List.mem_flatten.mp h2
      exact List.mem_append.mpr
        (Or.inr (List.mem_flatten.mpr ⟨l, List.mem_cons_of_mem _ hl, hx2⟩))

/-! ## Sorting and truncation lemmas -/

theorem mem_insertByGt {α : Type} (gt : α → α → Bool) (x a : α) (l : List α) :
    a ∈ insertByGt gt x l ↔ a = x ∨ a ∈ l := by
  induction l with
  | nil => simp [insertByGt]
  | cons y ys ih =>
    by_cases h : gt x y <;> simp [insertByGt, h, ih] <;> tauto

theorem length_insertByGt {α : Type} (gt : α → α → Bool) (x : α)
    (l : List α) : (insertByGt gt x l).length = l.length + 1 := by
  induction l with
  | nil => simp [insertByGt]
  | cons y ys ih =>
    by_cases h : gt x y <;> simp [insertByGt, h, ih]

theorem mem_sortByGt {α : Type} (gt : α → α → Bool) (a : α) (l : List α) :
    a ∈ sortByGt gt l ↔ a ∈ l := by
  suffices haux : ∀ acc, a ∈ l.foldl (fun acc x => insertByGt gt x acc) acc ↔
      a ∈ acc ∨ a ∈ l by
    simpa [sortByGt] using haux []
  induction l with
  | nil => intro acc; simp
  | cons y ys ih =>
    intro acc
    rw [List.foldl_cons, ih, mem_insertByGt]
    simp
    tauto

theorem length_sortByGt {α : Type} (gt : α → α → Bool) (l : List α) :
    (sortByGt gt l).length = l.length := by
  suffices haux : ∀ acc, (l.foldl (fun acc x => insertByGt gt x acc) acc).length =
      acc.length + l.length by
    simpa [sortByGt] using haux []
  induction l with
  | nil => intro acc; simp
  | cons y ys ih =>
    intro acc
    rw [List.foldl_cons, ih, length_insertByGt, List.length_cons]
    omega

/-! ## Pipeline shape lemmas -/

/-- On a cache miss, `extractKeywords` returns the freshly computed ranking
(or `[]` for an empty corpus). -/
theorem extract_fst_of_miss (s : TFIDFState) (docs : List String)
    (o : TFIDFOptions)
    (hmiss : alGet s.cache (generateCacheKey docs o) = none) :
    (extractKeywords s docs o).1 =
      if docs.isEmpty then [] else computeKeywords s.stopWords docs o := by
  by_cases hd : docs.isEmpty <;> simp [extractKeywords, hd, hmiss]

theorem length_computeCore (sw : List String) (docs : List String)
    (ml : Nat) (mwf : Option ℚ) (mdf tp : ℚ) :
    (computeCore sw docs ml mwf mdf tp).length =
      min (keepCountOf (filteredResultsOf sw docs ml mwf mdf).length tp)
        (filteredResultsOf sw docs ml mwf mdf).length := by
  simp [computeCore, List.length_take, length_sortByGt]

theorem mem_computeCore {sw docs : List String} {ml : Nat} {mwf : Option ℚ}
    {mdf tp : ℚ} {r : KeywordResult}
    (h : r ∈ computeCore sw docs ml mwf mdf tp) :
    r ∈ filteredResultsOf sw docs ml mwf mdf := by
  have h2 := List.take_subset _ _ h
  exact (mem_sortByGt _ r _).mp h2

theorem mem_rawResults_of_filtered {sw docs : List String} {ml : Nat}
    {mwf : Option ℚ} {mdf : ℚ} {r : KeywordResult}
    (h : r ∈ filteredResultsOf sw docs ml mwf mdf) :
    r ∈ rawResults docs.length (processDocs sw docs ml) :=
  (List.mem_filter.mp h).1

theorem one_le_keepCountOf (n : Nat) (tp : ℚ) : 1 ≤ keepCountOf n tp := by
  unfold keepCountOf
  have h : (1 : ℤ) ≤ max 1 (Rat.floor ((n : ℚ) * tp)) := le_max_left _ _
  have := Int.toNat_le_toNat h
  simpa using this

theorem keepCountOf_le (n : Nat) (tp : ℚ) (htp : tp ≤ 1) (hn : 1 ≤ n) :
    keepCountOf n tp ≤ n := by
  unfold keepCountOf
  have hfloor : Rat.floor ((n : ℚ) * tp) ≤ (n : ℤ) := by
    rw [Rat.floor_def', ← Rat.floor_def]
    calc ⌊(n : ℚ) * tp⌋ ≤ ⌊(n : ℚ)⌋ :=
          Int.floor_le_floor (by
            have hnn : (0 : ℚ) ≤ (n : ℚ) := by positivity
            calc (n : ℚ) * tp ≤ (n : ℚ) * 1 := by
                  exact mul_le_mul_of_nonneg_left htp hnn
              _ = (n : ℚ) := mul_one _)
      _ = (n : ℤ) := Int.floor_natCast n
  have hmax : max 1 (Rat.floor ((n : ℚ) * tp)) ≤ (n : ℤ) := by
    apply max_le
    · exact_mod_cast hn
    · exact hfloor
  have := Int.toNat_le_toNat hmax
  simpa using this

/-! ## Basic lemmas -/

/-- `x || d` on a positive configured number is the number itself. -/
theorem jsOrNat_pos (n d : Nat) (h : 1 ≤ n) : jsOrNat (some n) d = n := by
  cases n with
  | zero => omega
  | succ k => rfl

/-- One failing step of the retry loop. -/
theorem retryFrom_succ_error (f : Nat → Except String GenerationResult)
    (start r : Nat) (last : Option String) (e : String)
    (hfe : f start = .error e) :
    retryFrom f start (r + 1) last =
      ((retryFrom f (start + 1) r (some e)).1,
        (retryFrom f (start + 1) r (some e)).2 + 1) := by
  simp only [retryFrom, hfe]

/-- If every attempt fails, the retry loop performs exactly its budget of
attempts and reports the error of the last one. -/
theorem retryFrom_all_fail (f : Nat → Except String GenerationResult)
    (errs : Nat → String) (hf : ∀ i, f i = .error (errs i)) :
    ∀ (r start : Nat) (last : Option String),
      retryFrom f start (r + 1) last = (.error (errs (start + r)), r + 1) := by
  intro r
  induction r with
  | zero =>
    intro start last
    rw [retryFrom_succ_error f start 0 last (errs start) (hf start)]
    simp [retryFrom]
  | succ k ih =>
    intro start last
    have harith : start + 1 + k = start + (k + 1) := by omega
    rw [retryFrom_succ_error f start (k + 1) last (errs start) (hf start),
      ih (start + 1), harith]

/-! ## Result-characterization lemmas -/

theorem mem_rawResults {N : Nat} {pdocs : List (List String)}
    {r : KeywordResult} (h : r ∈ rawResults N pdocs) :
    ∃ p ∈ buildAllTFIDF pdocs,
      r = mkResult N pdocs (buildWordFrequency pdocs) p := by
  obtain ⟨p, hp, hr⟩ := List.mem_map.mp h
  exact ⟨p, hp, hr.symm⟩

/-- The length of the processed-documents list is the corpus size. -/
theorem length_processDocs (sw : List String) (docs : List String)
    (ml : Nat) : (processDocs sw docs ml).length = docs.length := by
  simp [processDocs]

/-! ## Claim C2 -/

/-- C2 counterexample: with options `maxDocumentFrequency = 1`
(a legal option value) and `topPercentage = 1`, the corpus
`["alpha beta", "alpha gamma"]` returns a `KeywordResult` for `"alpha"`
(present in both documents) whose `idf = ln(2/3)` is strictly negative, so
`idf >= 0` does not hold for every returned result of every option value. -/
theorem c2_counterexample :
    ¬ (∀ r ∈ (extractKeywords TFIDFState.init ["alpha beta", "alpha gamma"]
          { maxDocumentFrequency := some 1, topPercentage := some 1 }).1,
        0 ≤ (r.idf.coef : ℝ) * Real.log (r.idf.arg : ℝ)) := by
  intro h
  have hmem : KeywordResult.mk "alpha" ⟨1/2, 2/3⟩ 1 ⟨1, 2/3⟩ ⟨1/2, 2/3⟩ 2 2 ∈
      (extractKeywords TFIDFState.init ["alpha beta", "alpha gamma"]
        { maxDocumentFrequency := some 1, topPercentage := some 1 }).1 := by
    decide
  have h2 := h _ hmem
  simp only [Rat.cast_one, one_mul] at h2
  have hlog : Real.log (((2 : ℚ)/3 : ℚ) : ℝ) < 0 := by
    have hc : (((2 : ℚ)/3 : ℚ) : ℝ) = (2/3 : ℝ) := by norm_num
    rw [hc]
    exact Real.log_neg (by norm_num) (by norm_num)
  exact absurd h2 (not_le.mpr hlog)

/-- C2 (amended): on a cache miss, every returned `KeywordResult` satisfies
`0 ≤ df ≤ 1`, `documentCount ≤ #documents` and
`frequency ≥ documentCount`; `idf ≥ 0` holds for every result whose term
does NOT appear in all documents (`documentCount < #documents`) — in
particular for everything that can pass the default
`maxDocumentFrequency = 0.8` filter — while a term present in all `N`
documents carries the negative `idf = ln(N/(N+1))`. -/
theorem c2_result_invariants (s : TFIDFState) (docs : List String)
    (o : TFIDFOptions)
    (hmiss : alGet s.cache (generateCacheKey docs o) = none) :
    ∀ r ∈ (extractKeywords s docs o).1,
      0 ≤ r.df ∧ r.df ≤ 1 ∧ r.documentCount ≤ docs.length ∧
        r.documentCount ≤ r.frequency ∧
        (r.documentCount < docs.length →
          0 ≤ (r.idf.coef : ℝ) * Real.log (r.idf.arg : ℝ)) := by
  intro r hr
  rw [extract_fst_of_miss s docs o hmiss] at hr
  by_cases hd : docs.isEmpty
  · rw [if_pos hd] at hr
    simp at hr
  · rw [if_neg hd] at hr
    simp only [computeKeywords] at hr
    have hr1 := mem_rawResults_of_filtered (mem_computeCore hr)
    obtain ⟨p, hp, rfl⟩ := mem_rawResults hr1
    have hlen : (processDocs s.stopWords docs (jsOrNat o.minWordLength 3)).length =
        docs.length := length_processDocs _ _ _
    have hdfN : dfAbs (processDocs s.stopWords docs (jsOrNat o.minWordLength 3)) p.1 ≤
        docs.length := hlen ▸ dfAbs_le_length _ _
    have hfreq : (alGet (buildWordFrequency
          (processDocs s.stopWords docs (jsOrNat o.minWordLength 3))) p.1).getD 0 =
        ((processDocs s.stopWords docs (jsOrNat o.minWordLength 3)).map
          fun d => d.count p.1).sum := getD_buildWordFrequency _ _
    refine ⟨?_, ?_, ?_, ?_, ?_⟩
    · show (0 : ℚ) ≤ (dfAbs _ p.1 : ℚ) / (docs.length : ℚ)
      positivity
    · show (dfAbs _ p.1 : ℚ) / (docs.length : ℚ) ≤ 1
      rcases Nat.eq_zero_or_pos docs.length with h0 | h0
      · rw [h0]; norm_num
      · rw [div_le_one (by exact_mod_cast h0)]
        exact_mod_cast hdfN
    · exact hdfN
    · show dfAbs _ p.1 ≤ (alGet _ p.1).getD 0
      rw [hfreq]
      exact dfAbs_le_count_sum _ _
    · intro hlt
      show (0 : ℝ) ≤ ((1 : ℚ) : ℝ) *
        Real.log ((idfArg docs.length _ p.1 : ℚ) : ℝ)
      rw [Rat.cast_one, one_mul]
      apply Real.log_nonneg
      unfold idfArg
      have hlt2 : dfAbs (processDocs s.stopWords docs (jsOrNat o.minWordLength 3)) p.1 + 1 ≤
          docs.length := hlt
      rw [Rat.cast_div]
      rw [one_le_div (by push_cast; positivity)]
      push_cast
      exact_mod_cast hlt2

/-- C2 (amended), witnessed at the one result the corpus
`["alpha beta", "gamma"]` returns under default options. -/
theorem c2_result_invariants_witness :
    0 ≤ (KeywordResult.mk "alpha" ⟨1/4, 1⟩ (1/2) ⟨1, 1⟩ ⟨1/2, 1⟩ 1 1).df ∧
      (KeywordResult.mk "alpha" ⟨1/4, 1⟩ (1/2) ⟨1, 1⟩ ⟨1/2, 1⟩ 1 1).df ≤ 1 ∧
      (KeywordResult.mk "alpha" ⟨1/4, 1⟩ (1/2) ⟨1, 1⟩ ⟨1/2, 1⟩ 1
          1).documentCount ≤ 2 ∧
      (KeywordResult.mk "alpha" ⟨1/4, 1⟩ (1/2) ⟨1, 1⟩ ⟨1/2, 1⟩ 1
          1).documentCount ≤
        (KeywordResult.mk "alpha" ⟨1/4, 1⟩ (1/2) ⟨1, 1⟩ ⟨1/2, 1⟩ 1
          1).frequency ∧
      0 ≤ ((KeywordResult.mk "alpha" ⟨1/4, 1⟩ (1/2) ⟨1, 1⟩ ⟨1/2, 1⟩ 1
            1).idf.coef : ℝ) *
        Real.log ((KeywordResult.mk "alpha" ⟨1/4, 1⟩ (1/2) ⟨1, 1⟩ ⟨1/2, 1⟩ 1
            1).idf.arg : ℝ) := by
  have h := c2_result_invariants TFIDFState.init ["alpha beta", "gamma"] {}
    rfl (KeywordResult.mk "alpha" ⟨1/4, 1⟩ (1/2) ⟨1, 1⟩ ⟨1/2, 1⟩ 1 1)
    (by decide)
  exact ⟨h.1, h.2.1, h.2.2.1, h.2.2.2.1, h.2.2.2.2 (by decide)⟩

/-! ## Claim C3 -/

/-- C3: a term appearing in all `N` documents (of a nonempty corpus that is
not served from the cache) gets `idf = ln(N/(N+1))`, which is strictly
negative, and any `KeywordResult` returned for it carries exactly that
negative value — the engine does not clamp it to zero. -/
theorem c3_negative_idf_unclamped (s : TFIDFState) (docs : List String)
    (o : TFIDFOptions) (w : String)
    (hmiss : alGet s.cache (generateCacheKey docs o) = none)
    (hN : 0 < docs.length)
    (hall : ∀ d ∈ processDocs s.stopWords docs (jsOrNat o.minWordLength 3),
      w ∈ d) :
    idfArg docs.length
        (processDocs s.stopWords docs (jsOrNat o.minWordLength 3)) w =
      (docs.length : ℚ) / ((docs.length : ℚ) + 1) ∧
    Real.log (((docs.length : ℚ) / ((docs.length : ℚ) + 1) : ℚ) : ℝ) < 0 ∧
    ∀ r ∈ (extractKeywords s docs o).1, r.word = w →
      r.idf = ⟨1, (docs.length : ℚ) / ((docs.length : ℚ) + 1)⟩ ∧
        (r.idf.coef : ℝ) * Real.log (r.idf.arg : ℝ) < 0 := by
  have hdf : dfAbs (processDocs s.stopWords docs (jsOrNat o.minWordLength 3)) w =
      docs.length := by
    rw [dfAbs_of_all hall, length_processDocs]
  have harg : idfArg docs.length
      (processDocs s.stopWords docs (jsOrNat o.minWordLength 3)) w =
      (docs.length : ℚ) / ((docs.length : ℚ) + 1) := by
    unfold idfArg
    rw [hdf]
  have hlog : Real.log (((docs.length : ℚ) / ((docs.length : ℚ) + 1) : ℚ) : ℝ) < 0 := by
    apply Real.log_neg
    · push_cast
      positivity
    · rw [Rat.cast_div]
      rw [div_lt_one (by push_cast; positivity)]
      push_cast
      norm_num
  refine ⟨harg, hlog, ?_⟩
  intro r hr hw
  rw [extract_fst_of_miss s docs o hmiss] at hr
  by_cases hd : docs.isEmpty
  · rw [if_pos hd] at hr
    simp at hr
  · rw [if_neg hd] at hr
    simp only [computeKeywords] at hr
    have hr1 := mem_rawResults_of_filtered (mem_computeCore hr)
    obtain ⟨p, hp, rfl⟩ := mem_rawResults hr1
    have hpw : p.1 = w := hw
    have hidf : (mkResult docs.length
        (processDocs s.stopWords docs (jsOrNat o.minWordLength 3))
        (buildWordFrequency (processDocs s.stopWords docs (jsOrNat o.minWordLength 3)))
        p).idf = ⟨1, (docs.length : ℚ) / ((docs.length : ℚ) + 1)⟩ := by
      show (⟨1, idfArg docs.length _ p.1⟩ : LogQ) = _
      rw [hpw, harg]
    refine ⟨hidf, ?_⟩
    rw [hidf]
    show ((1 : ℚ) : ℝ) * Real.log (((docs.length : ℚ) / ((docs.length : ℚ) + 1) : ℚ) : ℝ) < 0
    rw [Rat.cast_one, one_mul]
    exact hlog

/-- C3, witnessed: in `["alpha beta", "alpha gamma"]` the term `"alpha"`
appears in both documents; with `maxDocumentFrequency = 1` and
`topPercentage = 1` its result is returned with
`idf = ln(2/3) < 0`, unclamped. -/
theorem c3_negative_idf_unclamped_witness :
    idfArg (2 : Nat)
        (processDocs TFIDFState.init.stopWords ["alpha beta", "alpha gamma"] 3)
        "alpha" = ((2 : ℚ) : ℚ) / (((2 : ℚ) : ℚ) + 1) ∧
    Real.log ((((2 : ℚ)) / (((2 : ℚ)) + 1) : ℚ) : ℝ) < 0 ∧
    ∀ r ∈ (extractKeywords TFIDFState.init ["alpha beta", "alpha gamma"]
        { maxDocumentFrequency := some 1, topPercentage := some 1 }).1,
      r.word = "alpha" →
        r.idf = ⟨1, ((2 : ℚ)) / (((2 : ℚ)) + 1)⟩ ∧
          (r.idf.coef : ℝ) * Real.log (r.idf.arg : ℝ) < 0 :=
  c3_negative_idf_unclamped TFIDFState.init ["alpha beta", "alpha gamma"]
    { maxDocumentFrequency := some 1, topPercentage := some 1 } "alpha" rfl
    (by decide) (by decide)

/-! ## Claim C4 -/

/-- C4 counterexample: with explicitly supplied `topPercentage = 2` and the
corpus `["alpha beta", "gamma"]`, the filtered count is `3 > 0` but the
call returns `3` results while `max(1, floor(3 * 2)) = 6`: `slice` cannot
produce more elements than the filtered list has, so the claimed law fails
for `topPercentage > 1`. -/
theorem c4_counterexample :
    0 < (filteredResultsOf TFIDFState.init.stopWords ["alpha beta", "gamma"]
        3 none (4/5)).length ∧
    (extractKeywords TFIDFState.init ["alpha beta", "gamma"]
        { topPercentage := some 2 }).1.length ≠
      keepCountOf (filteredResultsOf TFIDFState.init.stopWords
        ["alpha beta", "gamma"] 3 none (4/5)).length 2 := by
  constructor
  · decide
  · decide

/-- C4 (amended): on a cache miss the number of returned results is
`min(filteredCount, max(1, floor(filteredCount * topPercentage)))`; the
result is empty iff the filtered set is empty; and whenever the effective
`topPercentage ≤ 1` (in particular for every percentage in `(0, 1]`, and
for the default `0.35`) the originally claimed law
`len = max(1, floor(filteredCount * topPercentage))` holds for nonempty
filtered sets. -/
theorem c4_truncation_law (s : TFIDFState) (docs : List String)
    (o : TFIDFOptions)
    (hmiss : alGet s.cache (generateCacheKey docs o) = none) :
    (extractKeywords s docs o).1.length =
      min (keepCountOf (filteredResultsOf s.stopWords docs
            (jsOrNat o.minWordLength 3) o.maxWordFrequency
            (jsOrQ o.maxDocumentFrequency (4/5))).length
          (jsOrQ o.topPercentage (7/20)))
        (filteredResultsOf s.stopWords docs (jsOrNat o.minWordLength 3)
          o.maxWordFrequency (jsOrQ o.maxDocumentFrequency (4/5))).length ∧
    ((extractKeywords s docs o).1.length = 0 ↔
      (filteredResultsOf s.stopWords docs (jsOrNat o.minWordLength 3)
        o.maxWordFrequency (jsOrQ o.maxDocumentFrequency (4/5))).length = 0) ∧
    (jsOrQ o.topPercentage (7/20) ≤ 1 →
      0 < (filteredResultsOf s.stopWords docs (jsOrNat o.minWordLength 3)
          o.maxWordFrequency (jsOrQ o.maxDocumentFrequency (4/5))).length →
      (extractKeywords s docs o).1.length =
        keepCountOf (filteredResultsOf s.stopWords docs
            (jsOrNat o.minWordLength 3) o.maxWordFrequency
            (jsOrQ o.maxDocumentFrequency (4/5))).length
          (jsOrQ o.topPercentage (7/20))) := by
  rw [extract_fst_of_miss s docs o hmiss]
  by_cases hd : docs.isEmpty
  · obtain rfl : docs = [] := by
      cases docs with
      | nil => rfl
      | cons a l => simp at hd
    have hfl : filteredResultsOf s.stopWords []
        (jsOrNat o.minWordLength 3) o.maxWordFrequency
        (jsOrQ o.maxDocumentFrequency (4/5)) = [] := rfl
    rw [hfl]
    simp
  · rw [if_neg hd]
    simp only [computeKeywords]
    rw [length_computeCore]
    have h1 := one_le_keepCountOf
      (filteredResultsOf s.stopWords docs (jsOrNat o.minWordLength 3)
        o.maxWordFrequency (jsOrQ o.maxDocumentFrequency (4/5))).length
      (jsOrQ o.topPercentage (7/20))
    refine ⟨rfl, by omega, ?_⟩
    intro htp hfl
    have h2 := keepCountOf_le
      (filteredResultsOf s.stopWords docs (jsOrNat o.minWordLength 3)
        o.maxWordFrequency (jsOrQ o.maxDocumentFrequency (4/5))).length
      (jsOrQ o.topPercentage (7/20)) htp hfl
    omega

/-- C4 (amended), witnessed at a concrete corpus with default options:
3 filtered terms, `keepCount = max(1, floor(3 * 0.35)) = 1` returned. -/
theorem c4_truncation_law_witness :
    (extractKeywords TFIDFState.init ["alpha beta", "gamma"] {}).1.length =
      min (keepCountOf (filteredResultsOf TFIDFState.init.stopWords
            ["alpha beta", "gamma"] (jsOrNat none 3) none
            (jsOrQ none (4/5))).length (jsOrQ none (7/20)))
        (filteredResultsOf TFIDFState.init.stopWords ["alpha beta", "gamma"]
          (jsOrNat none 3) none (jsOrQ none (4/5))).length ∧
    ((extractKeywords TFIDFState.init ["alpha beta", "gamma"] {}).1.length = 0 ↔
      (filteredResultsOf TFIDFState.init.stopWords ["alpha beta", "gamma"]
        (jsOrNat none 3) none (jsOrQ none (4/5))).length = 0) ∧
    (jsOrQ none (7/20) ≤ 1 →
      0 < (filteredResultsOf TFIDFState.init.stopWords ["alpha beta", "gamma"]
          (jsOrNat none 3) none (jsOrQ none (4/5))).length →
      (extractKeywords TFIDFState.init ["alpha beta", "gamma"] {}).1.length =
        keepCountOf (filteredResultsOf TFIDFState.init.stopWords
          ["alpha beta", "gamma"] (jsOrNat none 3) none
          (jsOrQ none (4/5))).length (jsOrQ none (7/20))) :=
  c4_truncation_law TFIDFState.init ["alpha beta", "gamma"] {} rfl

/-! ## Claim C7 -/

theorem setAdd_of_contains {l : List String} {x : String}
    (h : l.contains x = true) : setAdd l x = l := by
  unfold setAdd
  rw [h]
  simp

theorem setAdd_contains_self (l : List String) (x : String) :
    (setAdd l x).contains x = true := by
  unfold setAdd
  cases hc : l.contains x with
  | true => simpa using hc
  | false =>
    simp only [Bool.false_eq_true, if_false]
    exact List.elem_iff.mpr (List.mem_append.mpr (Or.inr (List.mem_singleton.mpr rfl)))

theorem setAdd_idem (l : List String) (x : String) :
    setAdd (setAdd l x) x = setAdd l x :=
  setAdd_of_contains (setAdd_contains_self l x)

/-- C7: adding the same stopword twice leaves the engine in the same state
as adding it once, and removing a stopword that is not in the set is a
no-op returning the state unchanged (and, being a total function, raises
no error). -/
theorem c7_stopword_add_idem_remove_noop (s : TFIDFState) (w v : String)
    (hv : jsToLower v ∉ s.stopWords) :
    addStopWords (addStopWords s [w]) [w] = addStopWords s [w] ∧
      removeStopWords s [v] = s := by
  constructor
  · simp only [addStopWords, List.foldl_cons, List.foldl_nil]
    rw [setAdd_idem]
  · simp only [removeStopWords, List.foldl_cons, List.foldl_nil]
    rw [List.filter_eq_self.mpr ?_]
    · intro a ha
      simp only [ne_eq, decide_eq_true_eq]
      exact fun hc => hv (hc ▸ ha)

/-- C7, witnessed on the freshly seeded engine. -/
theorem c7_stopword_add_idem_remove_noop_witness :
    addStopWords (addStopWords TFIDFState.init ["Novel"]) ["Novel"] =
        addStopWords TFIDFState.init ["Novel"] ∧
      removeStopWords TFIDFState.init ["placebo"] = TFIDFState.init :=
  c7_stopword_add_idem_remove_noop TFIDFState.init "Novel" "placebo"
    (by decide)

/-! ## Claim C8 -/

/-- C8: tokenizing `"COVID-19 vaccine study COVID-19 trial"` produces
`["covid-19","vaccine","study","covid-19","trial"]`, and filtering with
`minWordLength = 3` against the seeded stopword set removes `"study"` and
`"trial"` (both are seeded stopwords), leaving
`["covid-19","vaccine","covid-19"]` in order. -/
theorem c8_tokenize_filter_example :
    tokenize "COVID-19 vaccine study COVID-19 trial" =
        ["covid-19", "vaccine", "study", "covid-19", "trial"] ∧
      filterWords initStopWords
          (tokenize "COVID-19 vaccine study COVID-19 trial")
          { minWordLength := some 3 } =
        ["covid-19", "vaccine", "covid-19"] := by
  exact ⟨by decide, by decide⟩

/-! ## Claim C9 -/

/-- C9: distinct collections whose documents joined with `'|'` coincide get
the same cache key under equal options — e.g. the claim's example
`["a","b"]` vs `["a|b"]`, and `["alpha beta","gamma"]` vs
`["alpha beta|gamma"]`.  After extracting on the first of the latter pair,
extracting on the second returns the first collection's cached list (one
keyword, `"alpha"`), not the correct fresh result for the second
(the empty list, every term having `df = 1 > 0.8`). -/
theorem c9_cache_key_collision :
    generateCacheKey ["a", "b"] {} = generateCacheKey ["a|b"] {} ∧
      generateCacheKey ["alpha beta", "gamma"] {} =
        generateCacheKey ["alpha beta|gamma"] {} ∧
      (extractKeywords
          (extractKeywords TFIDFState.init ["alpha beta", "gamma"] {}).2
          ["alpha beta|gamma"] {}).1 =
        (extractKeywords TFIDFState.init ["alpha beta", "gamma"] {}).1 ∧
      (extractKeywords
          (extractKeywords TFIDFState.init ["alpha beta", "gamma"] {}).2
          ["alpha beta|gamma"] {}).1 ≠
        (extractKeywords TFIDFState.init ["alpha beta|gamma"] {}).1 :=
  ⟨by decide, by decide, by decide, by decide⟩

/-! ## Claim C10 -/

theorem computeKeywords_congr (sw : List String) (docs : List String)
    (o₁ o₂ : TFIDFOptions)
    (h1 : jsOrNat o₁.minWordLength 3 = jsOrNat o₂.minWordLength 3)
    (h2 : o₁.maxWordFrequency = o₂.maxWordFrequency)
    (h3 : jsOrQ o₁.maxDocumentFrequency (4/5) =
      jsOrQ o₂.maxDocumentFrequency (4/5))
    (h4 : jsOrQ o₁.topPercentage (7/20) = jsOrQ o₂.topPercentage (7/20)) :
    computeKeywords sw docs o₁ = computeKeywords sw docs o₂ := by
  simp only [computeKeywords, h1, h2, h3, h4]

theorem extract_fst_congr (s : TFIDFState) (docs : List String)
    (o₁ o₂ : TFIDFOptions)
    (hm1 : alGet s.cache (generateCacheKey docs o₁) = none)
    (hm2 : alGet s.cache (generateCacheKey docs o₂) = none)
    (hc : computeKeywords s.stopWords docs o₁ =
      computeKeywords s.stopWords docs o₂) :
    (extractKeywords s docs o₁).1 = (extractKeywords s docs o₂).1 := by
  rw [extract_fst_of_miss s docs o₁ hm1, extract_fst_of_miss s docs o₂ hm2,
    hc]

/-- C10: as long as neither variant is served from the cache, explicitly
passing `0` for `topPercentage`, `minWordLength` or `maxDocumentFrequency`
yields exactly the keyword list of the corresponding omitted option: each
of the three sites applies `options.x || default`, and `0` is falsy.
(The two calls do write their results under different cache keys, since the
serialized options differ; the returned ranking is identical.) -/
theorem c10_zero_option_equals_default (s : TFIDFState) (docs : List String)
    (o : TFIDFOptions)
    (h1 : alGet s.cache
      (generateCacheKey docs { o with topPercentage := some 0 }) = none)
    (h2 : alGet s.cache
      (generateCacheKey docs { o with topPercentage := none }) = none)
    (h3 : alGet s.cache
      (generateCacheKey docs { o with minWordLength := some 0 }) = none)
    (h4 : alGet s.cache
      (generateCacheKey docs { o with minWordLength := none }) = none)
    (h5 : alGet s.cache
      (generateCacheKey docs { o with maxDocumentFrequency := some 0 }) = none)
    (h6 : alGet s.cache
      (generateCacheKey docs { o with maxDocumentFrequency := none }) = none) :
    (extractKeywords s docs { o with topPercentage := some 0 }).1 =
        (extractKeywords s docs { o with topPercentage := none }).1 ∧
      (extractKeywords s docs { o with minWordLength := some 0 }).1 =
        (extractKeywords s docs { o with minWordLength := none }).1 ∧
      (extractKeywords s docs { o with maxDocumentFrequency := some 0 }).1 =
        (extractKeywords s docs { o with maxDocumentFrequency := none }).1 := by
  refine ⟨extract_fst_congr s docs _ _ h1 h2 ?_,
    extract_fst_congr s docs _ _ h3 h4 ?_,
    extract_fst_congr s docs _ _ h5 h6 ?_⟩ <;>
    exact computeKeywords_congr _ _ _ _ (by simp [jsOrNat]) (by simp)
      (by simp [jsOrQ]) (by simp [jsOrQ])

/-- C10, witnessed on the fresh engine (empty cache, both keys miss). -/
theorem c10_zero_option_equals_default_witness :
    (extractKeywords TFIDFState.init ["alpha beta", "gamma"]
          { topPercentage := some 0 }).1 =
        (extractKeywords TFIDFState.init ["alpha beta", "gamma"]
          { topPercentage := none }).1 ∧
      (extractKeywords TFIDFState.init ["alpha beta", "gamma"]
          { minWordLength := some 0 }).1 =
        (extractKeywords TFIDFState.init ["alpha beta", "gamma"]
          { minWordLength := none }).1 ∧
      (extractKeywords TFIDFState.init ["alpha beta", "gamma"]
          { maxDocumentFrequency := some 0 }).1 =
        (extractKeywords TFIDFState.init ["alpha beta", "gamma"]
          { maxDocumentFrequency := none }).1 :=
  c10_zero_option_equals_default TFIDFState.init ["alpha beta", "gamma"] {}
    rfl rfl rfl rfl rfl rfl

/-! ## Claim C1 -/

/-- C1 counterexample: the claim says a `generateText` call without
`preferredModel` always fails with a configuration error for EVERY manager
state, including any prior call history.  But the method consults the result
cache before validating `preferredModel`, so a manager whose cache holds a
fresh entry for the same `(prompt, options)` returns that
`GenerationResult` successfully even though no model was specified. -/
theorem c1_counterexample :
    (AIServiceManagerState.generateText
        { adapters := [],
          modelStatuses := [],
          config := mergeManagerConfig {},
          cache := [(genTextCacheKey "hello" {}, ⟨{ text := "cached" }, 0⟩)] }
        0 (fun _ _ => .error "down") "hello" { preferredModel := none }).1 =
      .ok { text := "cached" } := rfl

/-- C1 amended: whenever the cache lookup for `(prompt, options)` misses
(in particular for every manager with an empty or stale cache, whatever the
registered adapters and statuses), a `generateText` call without
`preferredModel` fails with the configuration error `必须指定AI模型` and
never returns a `GenerationResult`. -/
theorem c1_generate_text_requires_model (st : AIServiceManagerState)
    (now : Nat) (adapterGen : String → Nat → Except String GenerationResult)
    (prompt : String) (options : GenTextOptions)
    (hpm : options.preferredModel = none)
    (hmiss :
      (getFromCache st.config st.cache
          (genTextCacheKey prompt options.gen) now).1 = none) :
    (st.generateText now adapterGen prompt options).1 =
      .error "必须指定AI模型" := by
  simp only [AIServiceManagerState.generateText, hmiss, hpm]

/-- C1 amended, witnessed at a concrete fresh manager. -/
theorem c1_generate_text_requires_model_witness :
    (AIServiceManagerState.generateText
        { adapters := [], modelStatuses := [],
          config := mergeManagerConfig {}, cache := [] }
        0 (fun _ _ => .error "down") "hello" { preferredModel := none }).1 =
      .error "必须指定AI模型" :=
  c1_generate_text_requires_model _ 0 _ "hello" _ rfl rfl

/-! ## Claim C5 -/

/-- C5: with a cache miss, a specified and available model, and a configured
retry budget `maxRetries = R ≥ 1`, if the adapter's `generateText` fails on
every attempt then the manager's `generateText` makes exactly `R` attempts
(attempt `R + 1` never happens) and raises the error of attempt `R`;
the errors of attempts `1 .. R-1` are swallowed. -/
theorem c5_retry_exhaustion (st : AIServiceManagerState) (now : Nat)
    (adapterGen : String → Nat → Except String GenerationResult)
    (prompt : String) (options : GenTextOptions) (name : String) (R : Nat)
    (errs : Nat → String)
    (hmiss :
      (getFromCache st.config st.cache
          (genTextCacheKey prompt options.gen) now).1 = none)
    (hpm : options.preferredModel = some name)
    (havail : isModelAvailable st name = true)
    (hR : st.config.maxRetries = some R) (hR1 : 1 ≤ R)
    (hfail : ∀ i, adapterGen name i = .error (errs i)) :
    (st.generateText now adapterGen prompt options).1 = .error (errs R) ∧
      (st.generateText now adapterGen prompt options).2.2 = R := by
  obtain ⟨k, rfl⟩ : ∃ k, R = k + 1 := ⟨R - 1, by omega⟩
  have hjs : jsOrNat st.config.maxRetries 3 = k + 1 := by
    rw [hR]; exact jsOrNat_pos _ _ hR1
  have harith : 1 + k = k + 1 := by omega
  have hretry := retryFrom_all_fail (adapterGen name) errs hfail k 1 none
  rw [harith] at hretry
  constructor <;>
    simp only [AIServiceManagerState.generateText, hmiss, hpm, havail,
      Bool.not_true, Bool.false_eq_true, if_false, hjs, hretry]

/-- C5, witnessed with a budget of 2 and an adapter failing every attempt
with the attempt number as the error: the call reports the second attempt's
error after exactly 2 attempts. -/
theorem c5_retry_exhaustion_witness :
    (AIServiceManagerState.generateText
          { adapters := ["m"],
            modelStatuses :=
              [("m", { name := "m", isAvailable := true, lastChecked := 0 })],
            config := mergeManagerConfig { maxRetries := some 2 },
            cache := [] }
          0 (fun _ i => .error (toString i)) "p"
          { preferredModel := some "m" }).1 = .error "2" ∧
      (AIServiceManagerState.generateText
          { adapters := ["m"],
            modelStatuses :=
              [("m", { name := "m", isAvailable := true, lastChecked := 0 })],
            config := mergeManagerConfig { maxRetries := some 2 },
            cache := [] }
          0 (fun _ i => .error (toString i)) "p"
          { preferredModel := some "m" }).2.2 = 2 :=
  c5_retry_exhaustion _ 0 _ "p" _ "m" 2 (fun i => toString i) rfl rfl rfl rfl
    (by omega) (fun i => rfl)

/-! ## Claim C6 -/

/-- C6: `updateConfig` with a partial configuration merges; every field the
partial update leaves out (`none`) keeps its previous value after
`getConfig`, and is never wiped. -/
theorem c6_update_config_preserves_unspecified (st : BaseAdapterState)
    (update : ModelConfig) :
    (update.apiKey = none →
      (st.updateConfig update).getConfig.apiKey = st.getConfig.apiKey) ∧
    (update.baseUrl = none →
      (st.updateConfig update).getConfig.baseUrl = st.getConfig.baseUrl) ∧
    (update.model = none →
      (st.updateConfig update).getConfig.model = st.getConfig.model) ∧
    (update.temperature = none →
      (st.updateConfig update).getConfig.temperature =
        st.getConfig.temperature) ∧
    (update.maxTokens = none →
      (st.updateConfig update).getConfig.maxTokens = st.getConfig.maxTokens) ∧
    (update.topP = none →
      (st.updateConfig update).getConfig.topP = st.getConfig.topP) ∧
    (update.frequencyPenalty = none →
      (st.updateConfig update).getConfig.frequencyPenalty =
        st.getConfig.frequencyPenalty) ∧
    (update.presencePenalty = none →
      (st.updateConfig update).getConfig.presencePenalty =
        st.getConfig.presencePenalty) := by
  refine ⟨fun h => ?_, fun h => ?_, fun h => ?_, fun h => ?_, fun h => ?_,
    fun h => ?_, fun h => ?_, fun h => ?_⟩ <;>
    simp [BaseAdapterState.updateConfig, BaseAdapterState.getConfig,
      mergeModelConfig, h]

/-- C6, witnessed: an update of `model` alone preserves the previously set
`apiKey` and `baseUrl`. -/
theorem c6_update_config_witness :
    ((BaseAdapterState.updateConfig
          { modelName := "deepseek",
            config :=
              { apiKey := some "sk-1", baseUrl := some "https://a",
                model := some "m0" } }
          { model := some "x" }).getConfig.apiKey = some "sk-1") ∧
      ((BaseAdapterState.updateConfig
            { modelName := "deepseek",
              config :=
                { apiKey := some "sk-1", baseUrl := some "https://a",
                  model := some "m0" } }
            { model := some "x" }).getConfig.baseUrl = some "https://a") :=
  ⟨(c6_update_config_preserves_unspecified _ _).1 rfl,
    (c6_update_config_preserves_unspecified _ _).2.1 rfl⟩

end PubmedAnalysis
